import Mathlib

/-!
Verification development for the cloudflare_exporter repository.

The Go source (`exporter/metrics.go`, `exporter/configuration.go`, `main.go`)
is embedded shallowly:

* Go maps are association lists.  `lookupA` models a map read `m[k]` (with its
  ok flag), `setA` models the assignment `m[k] = v` (replace in place, append
  when absent).  Where the embedding iterates an input map it does so in list
  order; Go leaves map iteration order unspecified, and none of the properties
  proved below depend on that order.
* `prometheus.Labels` (a `map[string]string`) is an association list as well;
  `Labels.ofList` builds a map literal and the loop assignment
  `labels[byLabel] = key` is a `setA`.  Every label map the program builds for
  a given metric name is built by the same code path, so the insertion-order
  association list is a canonical form: list equality coincides with Go map
  equality, and a key-set comparison is list equality of the key lists.
* `GaugeVec.withSet` models `vec.With(labels).Set(value)`: Prometheus panics
  when the supplied label names do not match the vector's schema, which the
  embedding renders as `none`; on a match the value for that exact label tuple
  is overwritten.
* Gauge values are kept as `Int`.  The source converts Go integers with
  `float64(value)`; every value handled by the program (request totals, unix
  timestamps) is far below 2^53, where that conversion is exact, so the
  embedding tracks the integer itself.
* Fallible external collaborators (the cloudflare API client, stdlib duration
  parsing, the wall clock) are an `Env` of oracle functions; the constructors
  of the cloudflare API client validate non-empty credentials as the
  cloudflare-go library documents.
-/

namespace CloudflareExporter

/-- Go map read `v, ok := m[k]`, on the association-list model of a map. -/
def lookupA {α β : Type} [DecidableEq α] (k : α) : List (α × β) → Option β
  | [] => none
  | (k', v) :: rest => if k' = k then some v else lookupA k rest

/-- Go map write `m[k] = v`: replace the binding in place, append when absent. -/
def setA {α β : Type} [DecidableEq α] (k : α) (v : β) : List (α × β) → List (α × β)
  | [] => [(k, v)]
  | (k', v') :: rest => if k' = k then (k, v) :: rest else (k', v') :: setA k v rest

/-- `prometheus.Labels`, a Go `map[string]string`, as an association list in
insertion order; every label map for a given metric name is built by the same
code path, so this is a canonical form and list equality is map equality. -/
abbrev Labels := List (String × String)

/-- Build a label map from a literal list of bindings, as a Go map literal does. -/
def Labels.ofList (l : List (String × String)) : Labels :=
  l.foldl (fun m kv => setA kv.1 kv.2 m) []

/-- The label-name set of a label map (`for label := range labels`). -/
def Labels.keys (ls : Labels) : List String := ls.map Prod.fst

/-- One `prometheus.GaugeVec`: help text and label-name schema fixed at
creation, plus the last-set value per concrete label tuple. -/
structure GaugeVec where
  help : String
  labelNames : List String
  data : List (Labels × Int)
  deriving DecidableEq

/-- `cm.gauges`, the Go `map[string]*prometheus.GaugeVec`. -/
abbrev Registry := List (String × GaugeVec)

/-- `vec.With(labels).Set(value)`.  Prometheus panics when the label names of
`ls` differ from the vector's schema (`none` here); otherwise the value under
that exact label tuple is overwritten. -/
def GaugeVec.withSet (g : GaugeVec) (ls : Labels) (v : Int) : Option GaugeVec :=
  if Labels.keys ls = g.labelNames then some { g with data := setA ls v g.data } else none

/-- `cm.gauges[name].With(labels).Set(float64(value))`: look the vector up in
the registry and set one labelled value.  `none` models the panic on a missing
vector (nil dereference) or a label-schema mismatch. -/
def registrySet (name : String) (ls : Labels) (v : Int) (st : Registry) : Option Registry :=
  match lookupA name st with
  | none => none
  | some g => (GaugeVec.withSet g ls v).map fun g' => setA name g' st

/-- `createGaugeIfNotExists` (metrics.go:196-208): when `name` is unbound,
register a fresh vector whose schema is the key set of `labels`; when a vector
already exists under `name`, leave the registry untouched. -/
def createGaugeIfNotExists (name help : String) (labels : Labels) (st : Registry) : Registry :=
  match lookupA name st with
  | some _ => st
  | none => setA name ⟨help, Labels.keys labels, []⟩ st

/-- `updateZoneGauge` (metrics.go:172-176). -/
def updateZoneGauge (zoneId zoneName name help : String) (value : Int) (st : Registry) :
    Option Registry :=
  let labels := Labels.ofList [("zone_id", zoneId), ("zone_name", zoneName)]
  let st := createGaugeIfNotExists name help labels st
  registrySet name labels value st

/-- The `for key, value := range values` loop shared by `updateZoneGaugeByLabel`
and `updateAccountGaugeByLabel`: per entry, set the breakdown label to the key
and record the value. -/
def setByLabelLoop (name byLabel : String) (base : Labels) :
    List (String × Int) → Registry → Option Registry
  | [], st => some st
  | (k, v) :: rest, st =>
    match registrySet name (setA byLabel k base) v st with
    | none => none
    | some st' => setByLabelLoop name byLabel base rest st'

/-- `updateZoneGaugeByLabel` (metrics.go:178-185). -/
def updateZoneGaugeByLabel (zoneId zoneName name help byLabel : String)
    (values : List (String × Int)) (st : Registry) : Option Registry :=
  let labels := Labels.ofList [("zone_id", zoneId), ("zone_name", zoneName), (byLabel, "")]
  let st := createGaugeIfNotExists name help labels st
  setByLabelLoop name byLabel labels values st

/-- `updateAccountGaugeByLabel` (metrics.go:187-194). -/
def updateAccountGaugeByLabel (accountId name help byLabel : String)
    (values : List (String × Int)) (st : Registry) : Option Registry :=
  let labels := Labels.ofList [("account_id", accountId), (byLabel, "")]
  let st := createGaugeIfNotExists name help labels st
  setByLabelLoop name byLabel labels values st

/-- SSL split of a totals block (`cloudflare-go` `ZoneAnalyticsData`). -/
structure SSLTotals where
  encrypted : Int
  unencrypted : Int
  deriving DecidableEq

/-- `data.Totals.Requests`. -/
structure RequestsTotals where
  all : Int
  cached : Int
  uncached : Int
  contentType : List (String × Int)
  country : List (String × Int)
  httpStatus : List (String × Int)
  ssl : SSLTotals
  deriving DecidableEq

/-- `data.Totals.Bandwidth`. -/
structure BandwidthTotals where
  all : Int
  cached : Int
  uncached : Int
  contentType : List (String × Int)
  country : List (String × Int)
  ssl : SSLTotals
  deriving DecidableEq

/-- `data.Totals.Threats`. -/
structure ThreatsTotals where
  all : Int
  country : List (String × Int)
  type : List (String × Int)
  deriving DecidableEq

/-- `data.Totals.Pageviews`. -/
structure PageviewsTotals where
  all : Int
  searchEngines : List (String × Int)
  deriving DecidableEq

/-- `data.Totals.Uniques`. -/
structure UniquesTotals where
  all : Int
  deriving DecidableEq

/-- The totals block of one zone analytics snapshot. -/
structure ZoneTotals where
  requests : RequestsTotals
  bandwidth : BandwidthTotals
  threats : ThreatsTotals
  pageviews : PageviewsTotals
  uniques : UniquesTotals
  deriving DecidableEq

/-- One zone analytics snapshot (`cloudflare.ZoneAnalyticsData`). -/
structure ZoneAnalyticsData where
  totals : ZoneTotals
  deriving DecidableEq

/-- One access service token: its name and `ExpiresAt.Unix()` (unix seconds). -/
structure AccessServiceToken where
  name : String
  expiresAtUnix : Int
  deriving DecidableEq

/-- The external collaborators of one update cycle: the cloudflare API client
(`ZoneIDByName`, `ZoneAnalyticsDashboard`, `AccessServiceTokens`), the stdlib
duration parser (`time.ParseDuration`, result in nanoseconds, `none` on a parse
error) and the wall clock (`time.Now()` as nanoseconds).  All are oracles: the
properties below hold for every behaviour of theirs. -/
structure Env where
  zoneIDByName : String → Except String String
  parseDuration : String → Option Int
  now : Int
  zoneAnalyticsDashboard : String → Int → Except String ZoneAnalyticsData
  accessServiceTokens : String → Except String (List AccessServiceToken)

/-- `updateAccount` (metrics.go:108-121): on a fetch error log and return; else
build the token-name → expiration map and emit one by-label gauge update. -/
def updateAccount (env : Env) (accountId : String) (st : Registry) : Option Registry :=
  match env.accessServiceTokens accountId with
  | .error _ => some st
  | .ok tokens =>
    let serviceTokenExpirationMap :=
      tokens.foldl (fun m t => setA t.name t.expiresAtUnix m) []
    updateAccountGaugeByLabel accountId "access_service_token_expiration"
      "The current unix timestamp at which a service token expires" "token_name"
      serviceTokenExpirationMap st

/-- `updateZone` (metrics.go:123-170): resolve the zone id, parse the lookback
duration, fetch the snapshot — each failure logs and abandons this zone — then
emit the fixed list of gauge bindings. -/
def updateZone (env : Env) (since : String) (zoneName : String) (st : Registry) :
    Option Registry :=
  match env.zoneIDByName zoneName with
  | .error _ => some st
  | .ok zoneId =>
    match env.parseDuration ("-" ++ since) with
    | none => some st
    | some d =>
      match env.zoneAnalyticsDashboard zoneId (env.now + d) with
      | .error _ => some st
      | .ok data =>
        match updateZoneGauge zoneId zoneName ("cloudflare_requests_rate" ++ since) "Total number of requests over the last 24h" data.totals.requests.all st with
        | none => none
        | some st =>
        match updateZoneGauge zoneId zoneName ("cloudflare_requests_cached_rate" ++ since) "Total number of cached requests over the last 24h" data.totals.requests.cached st with
        | none => none
        | some st =>
        match updateZoneGauge zoneId zoneName ("cloudflare_requests_uncached_rate" ++ since) "Total number of uncached requests over the last 24h" data.totals.requests.uncached st with
        | none => none
        | some st =>
        match updateZoneGaugeByLabel zoneId zoneName ("cloudflare_requests_content_type_rate" ++ since) "Total number of requests over the last 24h by response Content-Type header" "content_type" data.totals.requests.contentType st with
        | none => none
        | some st =>
        match updateZoneGaugeByLabel zoneId zoneName ("cloudflare_requests_country_rate" ++ since) "Total number of requests over the last 24h by request country" "country" data.totals.requests.country st with
        | none => none
        | some st =>
        match updateZoneGauge zoneId zoneName ("cloudflare_requests_encrypted_rate" ++ since) "Total number of encrypted requests over the last 24h" data.totals.requests.ssl.encrypted st with
        | none => none
        | some st =>
        match updateZoneGauge zoneId zoneName ("cloudflare_requests_unencrypted_rate" ++ since) "Total number of unencrypted requests over the last 24h" data.totals.requests.ssl.unencrypted st with
        | none => none
        | some st =>
        match updateZoneGaugeByLabel zoneId zoneName ("cloudflare_requests_status_rate" ++ since) "Total number of requests over the last 24h by response code" "status" data.totals.requests.httpStatus st with
        | none => none
        | some st =>
        match updateZoneGauge zoneId zoneName ("cloudflare_bandwidth_bytes_rate" ++ since) "Total bandwidth over the last 24h" data.totals.bandwidth.all st with
        | none => none
        | some st =>
        match updateZoneGauge zoneId zoneName ("cloudflare_bandwidth_cached_bytes_rate" ++ since) "Total cached bandwidth over the last 24h" data.totals.bandwidth.cached st with
        | none => none
        | some st =>
        match updateZoneGauge zoneId zoneName ("cloudflare_bandwidth_uncached_bytes_rate" ++ since) "Total uncached bandwidth over the last 24h" data.totals.bandwidth.uncached st with
        | none => none
        | some st =>
        match updateZoneGaugeByLabel zoneId zoneName ("cloudflare_bandwidth_content_type_bytes_rate" ++ since) "Total bandwidth over the last 24h by response Content-Type header" "content_type" data.totals.bandwidth.contentType st with
        | none => none
        | some st =>
        match updateZoneGaugeByLabel zoneId zoneName ("cloudflare_bandwidth_country_bytes_rate" ++ since) "Total bandwidth over the last 24h by request country" "country" data.totals.bandwidth.country st with
        | none => none
        | some st =>
        match updateZoneGauge zoneId zoneName ("cloudflare_bandwidth_encrypted_bytes_rate" ++ since) "Total encrypted bandwidth over the last 24h" data.totals.bandwidth.ssl.encrypted st with
        | none => none
        | some st =>
        match updateZoneGauge zoneId zoneName ("cloudflare_bandwidth_unencrypted_bytes_rate" ++ since) "Total unencrypted bandwidth over the last 24h" data.totals.bandwidth.ssl.unencrypted st with
        | none => none
        | some st =>
        match updateZoneGauge zoneId zoneName ("cloudflare_threats_rate" ++ since) "Total mitigated threats over the last 24h" data.totals.threats.all st with
        | none => none
        | some st =>
        match updateZoneGaugeByLabel zoneId zoneName ("cloudflare_threats_country_rate" ++ since) "Total mitigated threats over the last 24h by request country" "country" data.totals.threats.country st with
        | none => none
        | some st =>
        match updateZoneGaugeByLabel zoneId zoneName ("cloudflare_threats_type_rate" ++ since) "Total mitigated threats over the last 24h by type" "type" data.totals.threats.type st with
        | none => none
        | some st =>
        match updateZoneGauge zoneId zoneName ("cloudflare_pageviews_rate" ++ since) "Total page views over the last 24h" data.totals.pageviews.all st with
        | none => none
        | some st =>
        match updateZoneGaugeByLabel zoneId zoneName ("cloudflare_pageviews_search_engine_rate" ++ since) "Total page views over the last 24h by search engine" "search_engine" data.totals.pageviews.searchEngines st with
        | none => none
        | some st =>
        match updateZoneGauge zoneId zoneName ("cloudflare_uniques_rate" ++ since) "Total unique visitors over the last 24h" data.totals.uniques.all st with
        | none => none
        | some st =>
        some st

/-- The cloudflare API handle, recording which constructor built it and with
which credentials (`cloudflare.New`, `NewWithAPIToken`, `NewWithUserServiceKey`). -/
inductive CfAPI where
  | emailAuth (key email : String)
  | tokenAuth (token : String)
  | userServiceKeyAuth (userServiceKey : String)
  deriving DecidableEq

/-- `ExporterConfig` (configuration.go:14-23). -/
structure ExporterConfig where
  cloudflareEmail : String
  cloudflareKey : String
  cloudflareToken : String
  cloudflareUserServiceKey : String
  cloudflareZones : String
  cloudflareAccounts : String
  cloudflareSince : String
  cloudflareIncludeAccess : Bool
  deriving DecidableEq

/-- `CloudflareMetrics` (metrics.go:13-24).  The unused counter, histogram and
summary maps of the source are omitted; `gauges` is the registry state. -/
structure CloudflareMetrics where
  api : CfAPI
  zones : List String
  accounts : List String
  since : String
  includeAccess : Bool
  gauges : Registry
  deriving DecidableEq

/-- The startup errors of `New` (metrics.go:26-30); `apiError` wraps an error
returned by a cloudflare API constructor. -/
inductive NewError where
  | noAuth
  | noZones
  | noAccounts
  | apiError (msg : String)
  deriving DecidableEq

/-- External collaborator `cloudflare.New(key, email)`: the cloudflare-go
constructor rejects empty credentials and otherwise yields an email+key handle. -/
def cloudflareNew (key email : String) : Except NewError CfAPI :=
  if key = "" ∨ email = "" then .error (.apiError "invalid credentials: key & email must not be empty")
  else .ok (.emailAuth key email)

/-- External collaborator `cloudflare.NewWithAPIToken(token)`. -/
def cloudflareNewWithAPIToken (token : String) : Except NewError CfAPI :=
  if token = "" then .error (.apiError "invalid credentials: API Token must not be empty")
  else .ok (.tokenAuth token)

/-- External collaborator `cloudflare.NewWithUserServiceKey(key)`. -/
def cloudflareNewWithUserServiceKey (key : String) : Except NewError CfAPI :=
  if key = "" then .error (.apiError "invalid credentials: User Service Key must not be empty")
  else .ok (.userServiceKeyAuth key)

/-- `newWithAPI` (metrics.go:83-95): split the comma-separated zone and account
lists after stripping spaces, and start with empty instrument maps. -/
def newWithAPI (cloudflareApi : CfAPI) (config : ExporterConfig) : CloudflareMetrics :=
  { api := cloudflareApi
    zones := ((config.cloudflareZones.replace " " "").splitOn ",")
    accounts := ((config.cloudflareAccounts.replace " " "").splitOn ",")
    since := config.cloudflareSince
    includeAccess := config.cloudflareIncludeAccess
    gauges := [] }

/-- `newWithEmailAuth` (metrics.go:56-63). -/
def newWithEmailAuth (config : ExporterConfig) : Except NewError CloudflareMetrics :=
  (cloudflareNew config.cloudflareKey config.cloudflareEmail).map (newWithAPI · config)

/-- `newWithTokenAuth` (metrics.go:65-72). -/
def newWithTokenAuth (config : ExporterConfig) : Except NewError CloudflareMetrics :=
  (cloudflareNewWithAPIToken config.cloudflareToken).map (newWithAPI · config)

/-- `newWithUserServiceKeyAuth` (metrics.go:74-81). -/
def newWithUserServiceKeyAuth (config : ExporterConfig) : Except NewError CloudflareMetrics :=
  (cloudflareNewWithUserServiceKey config.cloudflareUserServiceKey).map (newWithAPI · config)

/-- `New` (metrics.go:32-54). -/
def New (config : ExporterConfig) : Except NewError CloudflareMetrics :=
  if config.cloudflareZones = "" then .error .noZones
  else if config.cloudflareIncludeAccess = true ∧ config.cloudflareAccounts = "" then
    .error .noAccounts
  else if config.cloudflareEmail ≠ "" ∧ config.cloudflareKey ≠ "" then
    newWithEmailAuth config
  else if config.cloudflareToken ≠ "" then newWithTokenAuth config
  else if config.cloudflareUserServiceKey ≠ "" then newWithUserServiceKeyAuth config
  else .error .noAuth

/-- `update` (metrics.go:97-106): accounts first (when access metrics are on),
then zones, each in configured order. -/
def update (env : Env) (cm : CloudflareMetrics) : Option CloudflareMetrics := do
  let st ←
    if cm.includeAccess then
      cm.accounts.foldlM (fun s a => updateAccount env a s) cm.gauges
    else pure cm.gauges
  let st ← cm.zones.foldlM (fun s z => updateZone env cm.since z s) st
  pure { cm with gauges := st }

/-- A zone update is abandoned for this cycle: the id resolution errors, or the
configured duration does not parse, or the analytics fetch errors. -/
def zoneUpdateFails (env : Env) (since z : String) : Prop :=
  (∃ e, env.zoneIDByName z = .error e) ∨
  (∃ zid, env.zoneIDByName z = .ok zid ∧
    (env.parseDuration ("-" ++ since) = none ∨
     ∃ d e, env.parseDuration ("-" ++ since) = some d ∧
       env.zoneAnalyticsDashboard zid (env.now + d) = .error e))

/-- An account update is abandoned for this cycle: the token fetch errors. -/
def accountUpdateFails (env : Env) (a : String) : Prop :=
  ∃ e, env.accessServiceTokens a = .error e

/-- A concrete zone analytics snapshot used to exercise the theorems. -/
def demoSnapshot : ZoneAnalyticsData :=
  ⟨⟨⟨1000, 700, 300, [("text/html", 600)], [("US", 500), ("DE", 200)], [("200", 900)],
      ⟨800, 200⟩⟩,
    ⟨5000, 4000, 1000, [("text/html", 2500)], [("US", 3000)], ⟨4500, 500⟩⟩,
    ⟨7, [("US", 4)], [("sqli", 3)]⟩,
    ⟨450, [("google", 400)]⟩,
    ⟨123⟩⟩⟩

/-- A concrete environment: one resolvable zone, one account whose token list
repeats a token name, and everything else failing. -/
def demoEnv : Env where
  zoneIDByName := fun z => if z = "example.com" then .ok "zone1" else .error "zone not found"
  parseDuration := fun s => if s = "-24h" then some (-86400000000000) else none
  now := 1700000000000000000
  zoneAnalyticsDashboard := fun zid _ =>
    if zid = "zone1" then .ok demoSnapshot else .error "dashboard error"
  accessServiceTokens := fun a =>
    if a = "acct1" then .ok [⟨"tok", 5⟩, ⟨"tok", 9⟩] else .error "token fetch error"

/-- A concrete exporter state with one good and one bad zone configured. -/
def demoCM : CloudflareMetrics :=
  { api := .tokenAuth "t"
    zones := ["example.com", "badzone.example"]
    accounts := ["acct1"]
    since := "24h"
    includeAccess := false
    gauges := [] }

/-- One gauge-registry update operation of the source, as data: an explicit
creation, a scalar zone update, or a by-label (zone or account) update. -/
inductive MetricOp where
  | createGauge (name help : String) (labels : Labels)
  | zoneGauge (zoneId zoneName name help : String) (value : Int)
  | zoneGaugeByLabel (zoneId zoneName name help byLabel : String)
      (values : List (String × Int))
  | accountGaugeByLabel (accountId name help byLabel : String)
      (values : List (String × Int))
  deriving DecidableEq

/-- Run one update operation on the registry. -/
def applyOp : MetricOp → Registry → Option Registry
  | .createGauge name help labels, st => some (createGaugeIfNotExists name help labels st)
  | .zoneGauge zid zn name help v, st => updateZoneGauge zid zn name help v st
  | .zoneGaugeByLabel zid zn name help byLabel values, st =>
      updateZoneGaugeByLabel zid zn name help byLabel values st
  | .accountGaugeByLabel acct name help byLabel values, st =>
      updateAccountGaugeByLabel acct name help byLabel values st

/-- Run a sequence of update operations on the registry. -/
def applyOps : List MetricOp → Registry → Option Registry
  | [], st => some st
  | op :: rest, st =>
    match applyOp op st with
    | none => none
    | some st' => applyOps rest st'

/-- The value one operation leaves on the observation of instrument `name` at
label tuple `t` whose current value is `w`: unchanged unless the operation
writes that exact (name, tuple), in which case the written value (for a
by-label operation, the last entry of its values map hitting the tuple) wins. -/
def opValue (name : String) (t : Labels) (w : Int) : MetricOp → Int
  | .createGauge _ _ _ => w
  | .zoneGauge zid zn nm _ v =>
      if nm = name ∧ Labels.ofList [("zone_id", zid), ("zone_name", zn)] = t then v else w
  | .zoneGaugeByLabel zid zn nm _ byLabel values =>
      values.foldl (fun acc kv =>
        if nm = name ∧ setA byLabel kv.1
            (Labels.ofList [("zone_id", zid), ("zone_name", zn), (byLabel, "")]) = t then
          kv.2
        else acc) w
  | .accountGaugeByLabel acct nm _ byLabel values =>
      values.foldl (fun acc kv =>
        if nm = name ∧ setA byLabel kv.1
            (Labels.ofList [("account_id", acct), (byLabel, "")]) = t then
          kv.2
        else acc) w

/-- The value a sequence of operations leaves on the observation of `name` at
tuple `t` starting from value `w`: the original value while no operation
writes that (name, tuple), and from then on the value of the last write. -/
def opsValue (name : String) (t : Labels) (w : Int) : List MetricOp → Int
  | [] => w
  | op :: rest => opsValue name t (opValue name t w op) rest

/-! ### Association-list lemmas -/

theorem lookupA_setA_self {α β : Type} [DecidableEq α] (k : α) (v : β) (l : List (α × β)) :
    lookupA k (setA k v l) = some v := by
  induction l with
  | nil => simp [lookupA, setA]
  | cons hd tl ih =>
    obtain ⟨k', v'⟩ := hd
    by_cases h : k' = k
    · subst h; simp [lookupA, setA]
    · simp [lookupA, setA, h, ih]

theorem lookupA_setA_ne {α β : Type} [DecidableEq α] {k k' : α} (v : β) (l : List (α × β))
    (h : k' ≠ k) : lookupA k (setA k' v l) = lookupA k l := by
  induction l with
  | nil => simp [lookupA, setA, h]
  | cons hd tl ih =>
    obtain ⟨k₀, v₀⟩ := hd
    by_cases h0 : k₀ = k'
    · subst h0; simp [lookupA, setA, h]
    · simp only [setA, if_neg h0, lookupA]
      by_cases h1 : k₀ = k <;> simp [h1, ih]

theorem setA_of_lookupA_none {α β : Type} [DecidableEq α] {k : α} (v : β) {l : List (α × β)}
    (h : lookupA k l = none) : setA k v l = l ++ [(k, v)] := by
  induction l with
  | nil => simp [setA]
  | cons hd tl ih =>
    obtain ⟨k₀, v₀⟩ := hd
    by_cases h0 : k₀ = k
    · subst h0; simp [lookupA] at h
    · simp only [lookupA, if_neg h0] at h
      simp [setA, h0, ih h]

theorem setA_of_lookupA_self {α β : Type} [DecidableEq α] {k : α} {v : β} {l : List (α × β)}
    (h : lookupA k l = some v) : setA k v l = l := by
  induction l with
  | nil => simp [lookupA] at h
  | cons hd tl ih =>
    obtain ⟨k₀, v₀⟩ := hd
    by_cases h0 : k₀ = k
    · subst h0
      simp only [lookupA, if_pos rfl] at h
      cases h
      simp [setA]
    · simp only [lookupA, if_neg h0] at h
      simp [setA, h0, ih h]

theorem setA_setA {α β : Type} [DecidableEq α] (k : α) (v v' : β) (l : List (α × β)) :
    setA k v' (setA k v l) = setA k v' l := by
  induction l with
  | nil => simp [setA]
  | cons hd tl ih =>
    obtain ⟨k₀, v₀⟩ := hd
    by_cases h0 : k₀ = k
    · subst h0; simp [setA]
    · simp [setA, h0, ih]

theorem lookupA_append_left {α β : Type} [DecidableEq α] {k : α} {v : β} {l₁ : List (α × β)}
    (l₂ : List (α × β)) (h : lookupA k l₁ = some v) : lookupA k (l₁ ++ l₂) = some v := by
  induction l₁ with
  | nil => simp [lookupA] at h
  | cons hd tl ih =>
    obtain ⟨k₀, v₀⟩ := hd
    by_cases h0 : k₀ = k
    · subst h0
      simp only [lookupA, if_pos rfl] at h
      cases h
      simp [lookupA]
    · simp only [lookupA, if_neg h0] at h ⊢
      exact ih h

theorem lookupA_append_none {α β : Type} [DecidableEq α] {k : α} {l₁ : List (α × β)}
    (l₂ : List (α × β)) (h : lookupA k l₁ = none) : lookupA k (l₁ ++ l₂) = lookupA k l₂ := by
  induction l₁ with
  | nil => simp
  | cons hd tl ih =>
    obtain ⟨k₀, v₀⟩ := hd
    by_cases h0 : k₀ = k
    · subst h0; simp [lookupA] at h
    · simp only [lookupA, if_neg h0] at h ⊢
      exact ih h

theorem lookupA_eq_none_iff {α β : Type} [DecidableEq α] (k : α) (l : List (α × β)) :
    lookupA k l = none ↔ k ∉ l.map Prod.fst := by
  induction l with
  | nil => simp [lookupA]
  | cons hd tl ih =>
    obtain ⟨k₀, v₀⟩ := hd
    by_cases h0 : k₀ = k
    · subst h0; simp [lookupA]
    · simp [lookupA, h0, ih, Ne.symm h0]

theorem map_fst_setA_of_lookupA_some {α β : Type} [DecidableEq α] {k : α} (v : β)
    {l : List (α × β)} (h : (lookupA k l).isSome) :
    (setA k v l).map Prod.fst = l.map Prod.fst := by
  induction l with
  | nil => simp [lookupA] at h
  | cons hd tl ih =>
    obtain ⟨k₀, v₀⟩ := hd
    by_cases h0 : k₀ = k
    · subst h0; simp [setA]
    · simp only [lookupA, if_neg h0] at h
      simp [setA, h0, ih h]

theorem nodup_map_fst_setA {α β : Type} [DecidableEq α] (k : α) (v : β) {l : List (α × β)}
    (h : (l.map Prod.fst).Nodup) : ((setA k v l).map Prod.fst).Nodup := by
  cases hl : lookupA k l with
  | some w =>
    rw [map_fst_setA_of_lookupA_some v (by simp [hl])]
    exact h
  | none =>
    rw [setA_of_lookupA_none v hl]
    rw [lookupA_eq_none_iff] at hl
    simp only [List.map_append, List.map_cons, List.map_nil]
    refine List.Nodup.append h (List.nodup_singleton k) ?_
    intro a ha hak
    rw [List.mem_singleton] at hak
    subst hak
    exact hl ha

/-! ### Label-map lemmas -/

theorem lookupA_isSome_iff_mem {α β : Type} [DecidableEq α] (k : α) (l : List (α × β)) :
    (lookupA k l).isSome ↔ k ∈ l.map Prod.fst := by
  cases hl : lookupA k l with
  | none =>
    rw [lookupA_eq_none_iff] at hl
    simp [hl]
  | some v =>
    have : ¬ lookupA k l = none := by simp [hl]
    rw [lookupA_eq_none_iff] at this
    simpa using not_not.mp this

theorem map_fst_setA_mem_iff {α β : Type} [DecidableEq α] (j k : α) (v : β)
    (l : List (α × β)) : j ∈ (setA k v l).map Prod.fst ↔ j = k ∨ j ∈ l.map Prod.fst := by
  induction l with
  | nil => simp [setA]
  | cons hd tl ih =>
    obtain ⟨k₀, v₀⟩ := hd
    by_cases h0 : k₀ = k
    · subst h0; simp [setA]
    · simp [setA, h0] at ih ⊢
      tauto

theorem Labels.keys_setA_of_mem (k v : String) {ls : Labels}
    (h : k ∈ Labels.keys ls) : Labels.keys (setA k v ls) = Labels.keys ls := by
  unfold Labels.keys at h ⊢
  exact map_fst_setA_of_lookupA_some v ((lookupA_isSome_iff_mem k ls).mpr h)

theorem Labels.mem_keys_setA_self (k v : String) (ls : Labels) :
    k ∈ Labels.keys (setA k v ls) := by
  unfold Labels.keys
  rw [map_fst_setA_mem_iff]
  exact Or.inl rfl

theorem setA_value_injective {α β : Type} [DecidableEq α] {byLabel : α} (base : List (α × β))
    {k k' : β} (h : setA byLabel k base = setA byLabel k' base) : k = k' := by
  have h1 := lookupA_setA_self byLabel k base
  have h2 := lookupA_setA_self byLabel k' base
  rw [h, h2] at h1
  exact (Option.some.inj h1).symm

/-! ### Registry-operation lemmas -/

theorem lookupA_append_self {α β : Type} [DecidableEq α] {k : α} (v : β) {l : List (α × β)}
    (h : lookupA k l = none) : lookupA k (l ++ [(k, v)]) = some v := by
  rw [lookupA_append_none _ h]
  simp [lookupA]

theorem setA_append_of_none {α β : Type} [DecidableEq α] {k : α} (v : β) {l : List (α × β)}
    (l₂ : List (α × β)) (h : lookupA k l = none) : setA k v (l ++ l₂) = l ++ setA k v l₂ := by
  induction l with
  | nil => simp
  | cons hd tl ih =>
    obtain ⟨k₀, v₀⟩ := hd
    by_cases h0 : k₀ = k
    · subst h0; simp [lookupA] at h
    · simp only [lookupA, if_neg h0] at h
      simp [setA, h0, ih h]

theorem zoneBase_eq (zid zn : String) :
    Labels.ofList [("zone_id", zid), ("zone_name", zn)] = [("zone_id", zid), ("zone_name", zn)] := by
  have h1 : ¬ ("zone_id" : String) = "zone_name" := by decide
  simp [Labels.ofList, setA, h1]

/-- `createGaugeIfNotExists` is a no-op when the metric name is already bound. -/
theorem createGaugeIfNotExists_of_mem {name : String} (help : String) (labels : Labels)
    {st : Registry} {g : GaugeVec} (h : lookupA name st = some g) :
    createGaugeIfNotExists name help labels st = st := by
  simp [createGaugeIfNotExists, h]

/-- `createGaugeIfNotExists` on an unbound name appends a fresh empty vector. -/
theorem createGaugeIfNotExists_of_fresh {name : String} (help : String) (labels : Labels)
    {st : Registry} (h : lookupA name st = none) :
    createGaugeIfNotExists name help labels st =
      st ++ [(name, ⟨help, Labels.keys labels, []⟩)] := by
  simp only [createGaugeIfNotExists, h]
  exact setA_of_lookupA_none _ h

/-- Characterization of the by-label loop when the vector exists with a matching
schema: every entry of `values` is recorded, in order, by overwriting the tuple
`base` with the breakdown key set. -/
theorem setByLabelLoop_eq (name byLabel : String) {base : Labels}
    (hmem : byLabel ∈ Labels.keys base) :
    ∀ (values : List (String × Int)) (st : Registry) (g : GaugeVec),
      lookupA name st = some g → Labels.keys base = g.labelNames →
      setByLabelLoop name byLabel base values st =
        some (setA name
          { g with data :=
              (values.foldl (fun d kv => setA (setA byLabel kv.1 base) kv.2 d) g.data) } st) := by
  intro values
  induction values with
  | nil =>
    intro st g hg hsch
    have he : ({ g with data := g.data } : GaugeVec) = g := rfl
    simp only [setByLabelLoop, List.foldl_nil, he]
    rw [setA_of_lookupA_self hg]
  | cons hd rest ih =>
    intro st g hg hsch
    obtain ⟨k, v⟩ := hd
    have hkeys : Labels.keys (setA byLabel k base) = Labels.keys base :=
      Labels.keys_setA_of_mem byLabel k hmem
    have hset : registrySet name (setA byLabel k base) v st =
        some (setA name { g with data := setA (setA byLabel k base) v g.data } st) := by
      simp only [registrySet, hg, GaugeVec.withSet]
      rw [if_pos (hkeys.trans hsch)]
      rfl
    simp only [setByLabelLoop, hset]
    rw [ih (setA name { g with data := setA (setA byLabel k base) v g.data } st)
      { g with data := setA (setA byLabel k base) v g.data }
      (lookupA_setA_self _ _ _) hsch]
    rw [setA_setA]
    rfl

/-- `updateZoneGauge` on an unbound metric name: a fresh vector with the
`zone_id`/`zone_name` schema and exactly one recorded tuple is appended. -/
theorem updateZoneGauge_fresh {name : String} (zid zn help : String) (v : Int) {st : Registry}
    (h : lookupA name st = none) :
    updateZoneGauge zid zn name help v st =
      some (st ++ [(name,
        ⟨help, ["zone_id", "zone_name"], [([("zone_id", zid), ("zone_name", zn)], v)]⟩)]) := by
  simp only [updateZoneGauge, zoneBase_eq]
  rw [createGaugeIfNotExists_of_fresh _ _ h]
  simp only [registrySet, lookupA_append_self _ h, GaugeVec.withSet, if_true]
  simp only [Option.map_some']
  rw [setA_append_of_none _ _ h]
  simp [setA, Labels.keys]

/-- `updateZoneGaugeByLabel` on an unbound metric name: a fresh vector is
appended whose schema is the key set of the base labels (which include the
breakdown key with a placeholder value) and whose data is the fold of the
per-entry overwrites. -/
theorem updateZoneGaugeByLabel_fresh {name : String} (zid zn help byLabel : String)
    (values : List (String × Int)) {st : Registry} (h : lookupA name st = none) :
    updateZoneGaugeByLabel zid zn name help byLabel values st =
      some (st ++ [(name,
        ⟨help,
         Labels.keys (Labels.ofList [("zone_id", zid), ("zone_name", zn), (byLabel, "")]),
         (values.foldl (fun d kv => setA
           (setA byLabel kv.1 (Labels.ofList [("zone_id", zid), ("zone_name", zn), (byLabel, "")]))
           kv.2 d) [])⟩)]) := by
  have hb : byLabel ∈ Labels.keys
      (Labels.ofList [("zone_id", zid), ("zone_name", zn), (byLabel, "")]) := by
    rw [show Labels.ofList [("zone_id", zid), ("zone_name", zn), (byLabel, "")] =
      setA byLabel "" (Labels.ofList [("zone_id", zid), ("zone_name", zn)]) from rfl]
    exact Labels.mem_keys_setA_self byLabel "" _
  simp only [updateZoneGaugeByLabel]
  rw [createGaugeIfNotExists_of_fresh _ _ h]
  rw [setByLabelLoop_eq name byLabel hb values _ _ (lookupA_append_self _ h) rfl]
  rw [setA_append_of_none _ _ h]
  simp [setA]

/-- `updateAccountGaugeByLabel` on an unbound metric name, analogously. -/
theorem updateAccountGaugeByLabel_fresh {name : String} (acct help byLabel : String)
    (values : List (String × Int)) {st : Registry} (h : lookupA name st = none) :
    updateAccountGaugeByLabel acct name help byLabel values st =
      some (st ++ [(name,
        ⟨help,
         Labels.keys (Labels.ofList [("account_id", acct), (byLabel, "")]),
         (values.foldl (fun d kv => setA
           (setA byLabel kv.1 (Labels.ofList [("account_id", acct), (byLabel, "")]))
           kv.2 d) [])⟩)]) := by
  have hb : byLabel ∈ Labels.keys (Labels.ofList [("account_id", acct), (byLabel, "")]) := by
    rw [show Labels.ofList [("account_id", acct), (byLabel, "")] =
      setA byLabel "" (Labels.ofList [("account_id", acct)]) from rfl]
    exact Labels.mem_keys_setA_self byLabel "" _
  simp only [updateAccountGaugeByLabel]
  rw [createGaugeIfNotExists_of_fresh _ _ h]
  rw [setByLabelLoop_eq name byLabel hb values _ _ (lookupA_append_self _ h) rfl]
  rw [setA_append_of_none _ _ h]
  simp [setA]

/-- Post-condition of a successful `updateZoneGauge`: the vector under `name`
holds `v` under the `zone_id`/`zone_name` tuple. -/
theorem updateZoneGauge_post {zid zn name help : String} {v : Int} {st st' : Registry}
    (h : updateZoneGauge zid zn name help v st = some st') :
    ∃ g, lookupA name st' = some g ∧
      lookupA (Labels.ofList [("zone_id", zid), ("zone_name", zn)]) g.data = some v := by
  simp only [updateZoneGauge, registrySet] at h
  cases hg : lookupA name
      (createGaugeIfNotExists name help (Labels.ofList [("zone_id", zid), ("zone_name", zn)]) st) with
  | none => rw [hg] at h; simp at h
  | some g₀ =>
    rw [hg] at h
    simp only [GaugeVec.withSet] at h
    by_cases hc : Labels.keys (Labels.ofList [("zone_id", zid), ("zone_name", zn)]) =
        g₀.labelNames
    · rw [if_pos hc] at h
      simp only [Option.map_some', Option.some.injEq] at h
      subst h
      exact ⟨_, lookupA_setA_self _ _ _, lookupA_setA_self _ _ _⟩
    · rw [if_neg hc] at h
      simp at h

/-- Folding per-entry overwrites over pairwise-distinct fresh tuples appends
exactly one data entry per input entry, in order. -/
theorem foldl_setA_map {f : String → Labels} (hinj : ∀ k k', f k = f k' → k = k') :
    ∀ (m : List (String × Int)) (d : List (Labels × Int)),
      (m.map Prod.fst).Nodup → (∀ kv ∈ m, lookupA (f kv.1) d = none) →
      m.foldl (fun d kv => setA (f kv.1) kv.2 d) d = d ++ m.map (fun kv => (f kv.1, kv.2)) := by
  intro m
  induction m with
  | nil => intro d _ _; simp
  | cons hd rest ih =>
    intro d hnd hfresh
    obtain ⟨k, v⟩ := hd
    simp only [List.map_cons, List.nodup_cons] at hnd
    obtain ⟨hk, hnd⟩ := hnd
    have hfk : lookupA (f k) d = none := hfresh (k, v) (List.mem_cons_self _ _)
    have hfresh' : ∀ kv ∈ rest, lookupA (f kv.1) (setA (f k) v d) = none := by
      intro kv hkv
      have hne : f kv.1 ≠ f k := by
        intro he
        exact hk ((hinj _ _ he) ▸ List.mem_map_of_mem Prod.fst hkv)
      rw [lookupA_setA_ne _ _ (Ne.symm hne)]
      exact hfresh kv (List.mem_cons_of_mem _ hkv)
    simp only [List.foldl_cons]
    rw [ih (setA (f k) v d) hnd hfresh']
    rw [setA_of_lookupA_none _ hfk]
    simp

/-! ### Frame lemmas: no update ever deletes a recorded label tuple -/

theorem lookupA_setA {α β : Type} [DecidableEq α] (k k' : α) (v : β) (l : List (α × β)) :
    lookupA k (setA k' v l) = if k' = k then some v else lookupA k l := by
  by_cases h : k' = k
  · subst h; rw [if_pos rfl]; exact lookupA_setA_self _ _ _
  · rw [if_neg h]; exact lookupA_setA_ne _ _ h

theorem createGaugeIfNotExists_preserves {nm : String} (help : String) (ls : Labels)
    {st : Registry} {name : String} {g : GaugeVec} (hg : lookupA name st = some g) :
    lookupA name (createGaugeIfNotExists nm help ls st) = some g := by
  unfold createGaugeIfNotExists
  cases hl : lookupA nm st with
  | some _ => exact hg
  | none =>
    rw [setA_of_lookupA_none _ hl]
    exact lookupA_append_left _ hg

theorem registrySet_preserves {nm : String} {ls : Labels} {v : Int} {st st' : Registry}
    (h : registrySet nm ls v st = some st') {name : String} {g : GaugeVec} {t : Labels}
    {w : Int} (hg : lookupA name st = some g) (hv : lookupA t g.data = some w) :
    ∃ g' w', lookupA name st' = some g' ∧ lookupA t g'.data = some w' := by
  unfold registrySet at h
  cases hl : lookupA nm st with
  | none => rw [hl] at h; simp at h
  | some g₀ =>
    rw [hl] at h
    simp only [GaugeVec.withSet] at h
    by_cases hc : Labels.keys ls = g₀.labelNames
    · rw [if_pos hc] at h
      simp only [Option.map_some', Option.some.injEq] at h
      subst h
      by_cases hnm : nm = name
      · subst hnm
        rw [hl] at hg
        cases hg
        have hdata : ∃ w', lookupA t (setA ls v g.data) = some w' := by
          rw [lookupA_setA]
          by_cases ht : ls = t
          · exact ⟨v, by rw [if_pos ht]⟩
          · exact ⟨w, by rw [if_neg ht]; exact hv⟩
        obtain ⟨w', hw'⟩ := hdata
        exact ⟨_, w', lookupA_setA_self _ _ _, hw'⟩
      · refine ⟨g, w, ?_, hv⟩
        rw [lookupA_setA_ne _ _ hnm]
        exact hg
    · rw [if_neg hc] at h
      simp at h

theorem setByLabelLoop_preserves {name byLabel : String} {base : Labels} :
    ∀ (values : List (String × Int)) (st st' : Registry),
      setByLabelLoop name byLabel base values st = some st' →
      ∀ (nm : String) (g : GaugeVec) (t : Labels) (w : Int),
        lookupA nm st = some g → lookupA t g.data = some w →
        ∃ g' w', lookupA nm st' = some g' ∧ lookupA t g'.data = some w' := by
  intro values
  induction values with
  | nil =>
    intro st st' h nm g t w hg hv
    simp only [setByLabelLoop, Option.some.injEq] at h
    subst h
    exact ⟨g, w, hg, hv⟩
  | cons hd rest ih =>
    intro st st' h nm g t w hg hv
    obtain ⟨k, v⟩ := hd
    simp only [setByLabelLoop] at h
    cases hr : registrySet name (setA byLabel k base) v st with
    | none => rw [hr] at h; simp at h
    | some st₁ =>
      rw [hr] at h
      obtain ⟨g₁, w₁, hg₁, hv₁⟩ := registrySet_preserves hr hg hv
      exact ih st₁ st' h nm g₁ t w₁ hg₁ hv₁

theorem updateZoneGauge_preserves {zid zn nm help : String} {v : Int} {st st' : Registry}
    (h : updateZoneGauge zid zn nm help v st = some st') {name : String} {g : GaugeVec}
    {t : Labels} {w : Int} (hg : lookupA name st = some g) (hv : lookupA t g.data = some w) :
    ∃ g' w', lookupA name st' = some g' ∧ lookupA t g'.data = some w' := by
  unfold updateZoneGauge at h
  exact registrySet_preserves h (createGaugeIfNotExists_preserves _ _ hg) hv

theorem updateZoneGaugeByLabel_preserves {zid zn nm help byLabel : String}
    {values : List (String × Int)} {st st' : Registry}
    (h : updateZoneGaugeByLabel zid zn nm help byLabel values st = some st')
    {name : String} {g : GaugeVec} {t : Labels} {w : Int}
    (hg : lookupA name st = some g) (hv : lookupA t g.data = some w) :
    ∃ g' w', lookupA name st' = some g' ∧ lookupA t g'.data = some w' := by
  unfold updateZoneGaugeByLabel at h
  exact setByLabelLoop_preserves values _ st' h name _ t w
    (createGaugeIfNotExists_preserves _ _ hg) hv

theorem updateAccountGaugeByLabel_preserves {acct nm help byLabel : String}
    {values : List (String × Int)} {st st' : Registry}
    (h : updateAccountGaugeByLabel acct nm help byLabel values st = some st')
    {name : String} {g : GaugeVec} {t : Labels} {w : Int}
    (hg : lookupA name st = some g) (hv : lookupA t g.data = some w) :
    ∃ g' w', lookupA name st' = some g' ∧ lookupA t g'.data = some w' := by
  unfold updateAccountGaugeByLabel at h
  exact setByLabelLoop_preserves values _ st' h name _ t w
    (createGaugeIfNotExists_preserves _ _ hg) hv

theorem applyOp_preserves {op : MetricOp} {st st' : Registry}
    (h : applyOp op st = some st') {name : String} {g : GaugeVec} {t : Labels} {w : Int}
    (hg : lookupA name st = some g) (hv : lookupA t g.data = some w) :
    ∃ g' w', lookupA name st' = some g' ∧ lookupA t g'.data = some w' := by
  cases op with
  | createGauge nm help labels =>
    simp only [applyOp, Option.some.injEq] at h
    subst h
    exact ⟨g, w, createGaugeIfNotExists_preserves _ _ hg, hv⟩
  | zoneGauge zid zn nm help v =>
    exact updateZoneGauge_preserves h hg hv
  | zoneGaugeByLabel zid zn nm help byLabel values =>
    exact updateZoneGaugeByLabel_preserves h hg hv
  | accountGaugeByLabel acct nm help byLabel values =>
    exact updateAccountGaugeByLabel_preserves h hg hv

/-! ### Value-tracking lemmas: an update leaves an untouched tuple's value
alone and overwrites a written one with exactly the written value -/

theorem registrySet_value {nm : String} {ls : Labels} {v : Int} {st st' : Registry}
    (h : registrySet nm ls v st = some st') {name : String} {g : GaugeVec} {t : Labels}
    {w : Int} (hg : lookupA name st = some g) (hv : lookupA t g.data = some w) :
    ∃ g', lookupA name st' = some g' ∧
      lookupA t g'.data = some (if nm = name ∧ ls = t then v else w) := by
  unfold registrySet at h
  cases hl : lookupA nm st with
  | none => rw [hl] at h; simp at h
  | some g₀ =>
    rw [hl] at h
    simp only [GaugeVec.withSet] at h
    by_cases hc : Labels.keys ls = g₀.labelNames
    · rw [if_pos hc] at h
      simp only [Option.map_some', Option.some.injEq] at h
      subst h
      by_cases hnm : nm = name
      · subst hnm
        rw [hl] at hg
        cases hg
        refine ⟨_, lookupA_setA_self _ _ _, ?_⟩
        rw [lookupA_setA]
        by_cases ht : ls = t
        · rw [if_pos ht, if_pos ⟨rfl, ht⟩]
        · rw [if_neg ht, if_neg (fun hc' => ht hc'.2), hv]
      · refine ⟨g, ?_, ?_⟩
        · rw [lookupA_setA_ne _ _ hnm]
          exact hg
        · rw [if_neg (fun hc' => hnm hc'.1), hv]
    · rw [if_neg hc] at h
      simp at h

theorem setByLabelLoop_value {name byLabel : String} {base : Labels} :
    ∀ (values : List (String × Int)) (st st' : Registry),
      setByLabelLoop name byLabel base values st = some st' →
      ∀ (nm : String) (g : GaugeVec) (t : Labels) (w : Int),
        lookupA nm st = some g → lookupA t g.data = some w →
        ∃ g', lookupA nm st' = some g' ∧
          lookupA t g'.data = some (values.foldl
            (fun acc kv => if name = nm ∧ setA byLabel kv.1 base = t then kv.2 else acc)
            w) := by
  intro values
  induction values with
  | nil =>
    intro st st' h nm g t w hg hv
    simp only [setByLabelLoop, Option.some.injEq] at h
    subst h
    exact ⟨g, hg, by simpa using hv⟩
  | cons hd rest ih =>
    intro st st' h nm g t w hg hv
    obtain ⟨k, v⟩ := hd
    simp only [setByLabelLoop] at h
    cases hr : registrySet name (setA byLabel k base) v st with
    | none => rw [hr] at h; simp at h
    | some st₁ =>
      rw [hr] at h
      obtain ⟨g₁, hg₁, hv₁⟩ := registrySet_value hr hg hv
      simpa [List.foldl_cons] using ih st₁ st' h nm g₁ t _ hg₁ hv₁

theorem updateZoneGauge_value {zid zn nm help : String} {v : Int} {st st' : Registry}
    (h : updateZoneGauge zid zn nm help v st = some st') {name : String} {g : GaugeVec}
    {t : Labels} {w : Int} (hg : lookupA name st = some g) (hv : lookupA t g.data = some w) :
    ∃ g', lookupA name st' = some g' ∧
      lookupA t g'.data = some
        (if nm = name ∧ Labels.ofList [("zone_id", zid), ("zone_name", zn)] = t then v
         else w) := by
  unfold updateZoneGauge at h
  exact registrySet_value h (createGaugeIfNotExists_preserves _ _ hg) hv

theorem updateZoneGaugeByLabel_value {zid zn nm help byLabel : String}
    {values : List (String × Int)} {st st' : Registry}
    (h : updateZoneGaugeByLabel zid zn nm help byLabel values st = some st')
    {name : String} {g : GaugeVec} {t : Labels} {w : Int}
    (hg : lookupA name st = some g) (hv : lookupA t g.data = some w) :
    ∃ g', lookupA name st' = some g' ∧
      lookupA t g'.data = some (values.foldl
        (fun acc kv => if nm = name ∧ setA byLabel kv.1
            (Labels.ofList [("zone_id", zid), ("zone_name", zn), (byLabel, "")]) = t then
          kv.2
        else acc) w) := by
  unfold updateZoneGaugeByLabel at h
  exact setByLabelLoop_value values _ st' h name _ t w
    (createGaugeIfNotExists_preserves _ _ hg) hv

theorem updateAccountGaugeByLabel_value {acct nm help byLabel : String}
    {values : List (String × Int)} {st st' : Registry}
    (h : updateAccountGaugeByLabel acct nm help byLabel values st = some st')
    {name : String} {g : GaugeVec} {t : Labels} {w : Int}
    (hg : lookupA name st = some g) (hv : lookupA t g.data = some w) :
    ∃ g', lookupA name st' = some g' ∧
      lookupA t g'.data = some (values.foldl
        (fun acc kv => if nm = name ∧ setA byLabel kv.1
            (Labels.ofList [("account_id", acct), (byLabel, "")]) = t then
          kv.2
        else acc) w) := by
  unfold updateAccountGaugeByLabel at h
  exact setByLabelLoop_value values _ st' h name _ t w
    (createGaugeIfNotExists_preserves _ _ hg) hv

theorem applyOp_value {op : MetricOp} {st st' : Registry}
    (h : applyOp op st = some st') {name : String} {g : GaugeVec} {t : Labels} {w : Int}
    (hg : lookupA name st = some g) (hv : lookupA t g.data = some w) :
    ∃ g', lookupA name st' = some g' ∧
      lookupA t g'.data = some (opValue name t w op) := by
  cases op with
  | createGauge nm help labels =>
    simp only [applyOp, Option.some.injEq] at h
    subst h
    exact ⟨g, createGaugeIfNotExists_preserves _ _ hg, by simpa [opValue] using hv⟩
  | zoneGauge zid zn nm help v =>
    simpa [opValue] using updateZoneGauge_value h hg hv
  | zoneGaugeByLabel zid zn nm help byLabel values =>
    simpa [opValue] using updateZoneGaugeByLabel_value h hg hv
  | accountGaugeByLabel acct nm help byLabel values =>
    simpa [opValue] using updateAccountGaugeByLabel_value h hg hv

/-! ### Failure-isolation lemmas -/

theorem updateZone_of_fails {env : Env} {since z : String} (h : zoneUpdateFails env since z)
    (st : Registry) : updateZone env since z st = some st := by
  rcases h with ⟨e, he⟩ | ⟨zid, hok, hrest⟩
  · simp only [updateZone, he]
  · rcases hrest with hnone | ⟨d, e, hd, he⟩
    · simp only [updateZone, hok, hnone]
    · simp only [updateZone, hok, hd, he]

theorem updateAccount_of_fails {env : Env} {a : String} (h : accountUpdateFails env a)
    (st : Registry) : updateAccount env a st = some st := by
  obtain ⟨e, he⟩ := h
  simp only [updateAccount, he]

theorem foldlM_skip {β : Type} {f : Registry → β → Option Registry} {z : β}
    (hz : ∀ s, f s z = some s) (zs1 zs2 : List β) :
    ∀ st : Registry, List.foldlM f st (zs1 ++ z :: zs2) = List.foldlM f st (zs1 ++ zs2) := by
  induction zs1 with
  | nil =>
    intro st
    simp [List.foldlM_cons, hz st]
  | cons a zs1 ih =>
    intro st
    simp only [List.cons_append, List.foldlM_cons]
    cases f st a with
    | none => rfl
    | some s => simpa using ih s

/-- The gauges produced by one `update` cycle: the account pass (when access
metrics are enabled) followed by the zone pass. -/
theorem update_gauges (env : Env) (cm : CloudflareMetrics) :
    Option.map CloudflareMetrics.gauges (update env cm) =
      Option.bind
        (if cm.includeAccess then
          cm.accounts.foldlM (fun s a => updateAccount env a s) cm.gauges
        else some cm.gauges)
        (fun st => List.foldlM (fun s z => updateZone env cm.since z s) st cm.zones) := by
  unfold update
  by_cases hia : cm.includeAccess
  · rw [if_pos hia, if_pos hia]
    cases List.foldlM (fun s a => updateAccount env a s) cm.gauges cm.accounts with
    | none => rfl
    | some st₁ =>
      show Option.map CloudflareMetrics.gauges
          (do
            let st ← List.foldlM (fun s z => updateZone env cm.since z s) st₁ cm.zones
            pure { cm with gauges := st }) =
        List.foldlM (fun s z => updateZone env cm.since z s) st₁ cm.zones
      cases List.foldlM (fun s z => updateZone env cm.since z s) st₁ cm.zones with
      | none => rfl
      | some st₂ => rfl
  · rw [if_neg hia, if_neg hia]
    show Option.map CloudflareMetrics.gauges
        (do
          let st ← List.foldlM (fun s z => updateZone env cm.since z s) cm.gauges cm.zones
          pure { cm with gauges := st }) =
      List.foldlM (fun s z => updateZone env cm.since z s) cm.gauges cm.zones
    cases List.foldlM (fun s z => updateZone env cm.since z s) cm.gauges cm.zones with
    | none => rfl
    | some st₂ => rfl

/-- The token-name → expiration map built by `updateAccount` has unique keys. -/
theorem buildTokenMap_nodup (tokens : List AccessServiceToken) :
    (((tokens.foldl (fun m t => setA t.name t.expiresAtUnix m) [])).map Prod.fst).Nodup := by
  suffices h : ∀ m : List (String × Int), (m.map Prod.fst).Nodup →
      (((tokens.foldl (fun m t => setA t.name t.expiresAtUnix m) m)).map Prod.fst).Nodup by
    exact h [] (by simp)
  induction tokens with
  | nil => intro m hm; exact hm
  | cons t rest ih =>
    intro m hm
    exact ih _ (nodup_map_fst_setA t.name t.expiresAtUnix hm)

/-! ### The claims -/

/-- C1: for every metric name the first instrument-creation call is
authoritative.  Once a gauge exists under a name, any later creation call —
with any help text and any label set — leaves the registry unchanged, and
every subsequent update addressed to that name lands in the instrument created
by the first call, whose help text and label-name schema it keeps. -/
theorem claim_C1 (name : String) (st : Registry) (g : GaugeVec)
    (h : lookupA name st = some g) :
    (∀ (helpText : String) (labels : Labels),
      createGaugeIfNotExists name helpText labels st = st) ∧
    (∀ (ls : Labels) (v : Int) (st' : Registry), registrySet name ls v st = some st' →
      ∃ g', lookupA name st' = some g' ∧ g'.help = g.help ∧
        g'.labelNames = g.labelNames) := by
  constructor
  · intro helpText labels
    exact createGaugeIfNotExists_of_mem helpText labels h
  · intro ls v st' hset
    unfold registrySet at hset
    rw [h] at hset
    simp only [GaugeVec.withSet] at hset
    by_cases hc : Labels.keys ls = g.labelNames
    · rw [if_pos hc] at hset
      simp only [Option.map_some', Option.some.injEq] at hset
      subst hset
      exact ⟨_, lookupA_setA_self _ _ _, rfl, rfl⟩
    · rw [if_neg hc] at hset
      simp at hset

/-- Witness for C1 at a concrete registry: a second creation call with a
different help text and label set leaves the entry untouched. -/
theorem claim_C1_witness :
    createGaugeIfNotExists "m" "other help" [("b", "x")]
        [("m", (⟨"h", ["a"], []⟩ : GaugeVec))] = [("m", ⟨"h", ["a"], []⟩)] :=
  (claim_C1 "m" [("m", ⟨"h", ["a"], []⟩)] ⟨"h", ["a"], []⟩ rfl).1 "other help" [("b", "x")]

/-- C2: two zone-gauge updates with the same name and the same label-value
tuple overwrite: after the second call the recorded value is the second
argument, never the sum of the two. -/
theorem claim_C2 (zid zn name help1 help2 : String) (v1 v2 : Int)
    (st st1 st2 : Registry)
    (_h1 : updateZoneGauge zid zn name help1 v1 st = some st1)
    (h2 : updateZoneGauge zid zn name help2 v2 st1 = some st2) :
    ∃ g, lookupA name st2 = some g ∧
      lookupA (Labels.ofList [("zone_id", zid), ("zone_name", zn)]) g.data = some v2 ∧
      (v1 ≠ 0 →
        lookupA (Labels.ofList [("zone_id", zid), ("zone_name", zn)]) g.data ≠
          some (v1 + v2)) := by
  obtain ⟨g, hga, hgv⟩ := updateZoneGauge_post h2
  refine ⟨g, hga, hgv, ?_⟩
  intro hv1 hcon
  rw [hgv] at hcon
  have : v2 = v1 + v2 := Option.some.inj hcon
  omega

/-- Witness for C2 at concrete inputs: setting 3 then 5 leaves 5 recorded, not 8. -/
theorem claim_C2_witness :
    ∃ g, lookupA "m"
        [("m", (⟨"h", ["zone_id", "zone_name"],
          [([("zone_id", "z"), ("zone_name", "n")], 5)]⟩ : GaugeVec))] = some g ∧
      lookupA (Labels.ofList [("zone_id", "z"), ("zone_name", "n")]) g.data = some 5 ∧
      ((3 : Int) ≠ 0 →
        lookupA (Labels.ofList [("zone_id", "z"), ("zone_name", "n")]) g.data ≠
          some (3 + 5)) :=
  claim_C2 "z" "n" "m" "h" "h" 3 5 []
    [("m", ⟨"h", ["zone_id", "zone_name"], [([("zone_id", "z"), ("zone_name", "n")], 3)]⟩)]
    [("m", ⟨"h", ["zone_id", "zone_name"], [([("zone_id", "z"), ("zone_name", "n")], 5)]⟩)]
    (by decide) (by decide)

/-- C3: a by-label update with an empty values map registers the instrument
when absent — with a schema containing the two base labels and the breakdown
key, and an empty data list — and records no observation; when the instrument
already exists the registry is left entirely unchanged. -/
theorem claim_C3 (zid zn name help byLabel : String) (st : Registry) :
    (lookupA name st = none →
      updateZoneGaugeByLabel zid zn name help byLabel [] st =
        some (st ++ [(name,
          ⟨help,
           Labels.keys (Labels.ofList [("zone_id", zid), ("zone_name", zn), (byLabel, "")]),
           []⟩)]) ∧
      byLabel ∈ Labels.keys (Labels.ofList [("zone_id", zid), ("zone_name", zn), (byLabel, "")]) ∧
      "zone_id" ∈ Labels.keys (Labels.ofList [("zone_id", zid), ("zone_name", zn), (byLabel, "")]) ∧
      "zone_name" ∈
        Labels.keys (Labels.ofList [("zone_id", zid), ("zone_name", zn), (byLabel, "")])) ∧
    (∀ g, lookupA name st = some g →
      updateZoneGaugeByLabel zid zn name help byLabel [] st = some st) := by
  have hsplit : Labels.ofList [("zone_id", zid), ("zone_name", zn), (byLabel, "")] =
      setA byLabel "" (setA "zone_name" zn (setA "zone_id" zid [])) := rfl
  constructor
  · intro hfresh
    refine ⟨?_, ?_, ?_, ?_⟩
    · have := updateZoneGaugeByLabel_fresh zid zn help byLabel [] hfresh
      simpa using this
    · rw [hsplit]
      exact Labels.mem_keys_setA_self byLabel "" _
    · rw [hsplit]
      unfold Labels.keys
      rw [map_fst_setA_mem_iff]
      refine Or.inr ?_
      have h1 : ¬ ("zone_id" : String) = "zone_name" := by decide
      simp [setA, h1]
    · rw [hsplit]
      unfold Labels.keys
      rw [map_fst_setA_mem_iff]
      refine Or.inr ?_
      have h1 : ¬ ("zone_id" : String) = "zone_name" := by decide
      simp [setA, h1]
  · intro g hg
    simp only [updateZoneGaugeByLabel, createGaugeIfNotExists_of_mem _ _ hg, setByLabelLoop]

/-- Witness for C3 at a concrete fresh registry. -/
theorem claim_C3_witness :
    updateZoneGaugeByLabel "z" "n" "m" "h" "country" [] [] =
      some ([] ++ [("m",
        (⟨"h",
          Labels.keys (Labels.ofList [("zone_id", "z"), ("zone_name", "n"), ("country", "")]),
          []⟩ : GaugeVec))]) ∧
    "country" ∈
      Labels.keys (Labels.ofList [("zone_id", "z"), ("zone_name", "n"), ("country", "")]) :=
  ⟨((claim_C3 "z" "n" "m" "h" "country" []).1 rfl).1,
   ((claim_C3 "z" "n" "m" "h" "country" []).1 rfl).2.1⟩

/-- C4: a by-label update on a fresh metric name records exactly one
observation per entry of the values map (a Go map, hence distinct keys): the
label tuple is the base labels with the breakdown key overwritten by the
entry's key, and the value is the entry's value. -/
theorem claim_C4 (zid zn name help byLabel : String) (values : List (String × Int))
    (st : Registry) (hfresh : lookupA name st = none)
    (hnodup : (values.map Prod.fst).Nodup) :
    ∃ st', updateZoneGaugeByLabel zid zn name help byLabel values st = some st' ∧
      lookupA name st' = some
        ⟨help,
         Labels.keys (Labels.ofList [("zone_id", zid), ("zone_name", zn), (byLabel, "")]),
         values.map (fun kv =>
           (setA byLabel kv.1
             (Labels.ofList [("zone_id", zid), ("zone_name", zn), (byLabel, "")]), kv.2))⟩ := by
  rw [updateZoneGaugeByLabel_fresh zid zn help byLabel values hfresh]
  rw [foldl_setA_map (fun k k' he => setA_value_injective _ he) values [] hnodup
    (fun kv _ => rfl)]
  refine ⟨_, rfl, ?_⟩
  simpa using lookupA_append_self
    (v := (⟨help,
      Labels.keys (Labels.ofList [("zone_id", zid), ("zone_name", zn), (byLabel, "")]),
      values.map (fun kv =>
        (setA byLabel kv.1
          (Labels.ofList [("zone_id", zid), ("zone_name", zn), (byLabel, "")]), kv.2))⟩ : GaugeVec))
    hfresh

/-- Witness for C4: the country map `{US: 500, DE: 200}` yields exactly the two
tuples `{zone_id, zone_name, country=US} → 500` and `{…, country=DE} → 200`. -/
theorem claim_C4_witness :
    (((([("US", (500 : Int)), ("DE", 200)]).map Prod.fst)).Nodup) ∧
    ∃ st', updateZoneGaugeByLabel "zone1" "example.com" "cloudflare_requests_country_rate24h"
        "Total number of requests over the last 24h by request country" "country"
        [("US", 500), ("DE", 200)] [] = some st' ∧
      lookupA "cloudflare_requests_country_rate24h" st' = some
        ⟨"Total number of requests over the last 24h by request country",
         Labels.keys (Labels.ofList
           [("zone_id", "zone1"), ("zone_name", "example.com"), ("country", "")]),
         [("US", (500 : Int)), ("DE", 200)].map (fun kv =>
           (setA "country" kv.1 (Labels.ofList
             [("zone_id", "zone1"), ("zone_name", "example.com"), ("country", "")]), kv.2))⟩ :=
  ⟨by decide,
   claim_C4 "zone1" "example.com" "cloudflare_requests_country_rate24h"
     "Total number of requests over the last 24h by request country" "country"
     [("US", 500), ("DE", 200)] [] rfl (by decide)⟩

/-- C5: for a zone whose id resolution, duration parse and analytics fetch all
succeed, with configured lookback `"24h"` and `Totals.Requests.All = 1000`,
`updateZone` records a gauge named `cloudflare_requests_rate24h` with label
names exactly `zone_id`, `zone_name` and value 1000 under the zone's tuple. -/
theorem claim_C5 (env : Env) (zoneName zoneId : String) (d : Int)
    (data : ZoneAnalyticsData)
    (h1 : env.zoneIDByName zoneName = .ok zoneId)
    (h2 : env.parseDuration "-24h" = some d)
    (h3 : env.zoneAnalyticsDashboard zoneId (env.now + d) = .ok data)
    (h4 : data.totals.requests.all = 1000) :
    ∃ st', updateZone env "24h" zoneName [] = some st' ∧
      ∃ g, lookupA "cloudflare_requests_rate24h" st' = some g ∧
        g.labelNames = ["zone_id", "zone_name"] ∧
        lookupA (Labels.ofList [("zone_id", zoneId), ("zone_name", zoneName)]) g.data =
          some 1000 := by
  have happ : ("-" ++ "24h" : String) = "-24h" := rfl
  simp only [updateZone, happ, h1, h2, h3, h4, updateZoneGauge_fresh,
    updateZoneGaugeByLabel_fresh, String.reduceAppend, String.reduceEq, lookupA, reduceIte,
    reduceCtorEq, List.nil_append, List.cons_append, List.append_nil]
  refine ⟨_, rfl, ⟨"Total number of requests over the last 24h", ["zone_id", "zone_name"],
    [([("zone_id", zoneId), ("zone_name", zoneName)], 1000)]⟩, ?_, rfl, ?_⟩
  · simp [lookupA]
  · simp [lookupA, Labels.ofList, setA]

/-- Witness for C5: the demo environment resolves `example.com`, parses the
24h window and serves a snapshot whose request total is 1000. -/
theorem claim_C5_witness :
    demoEnv.zoneIDByName "example.com" = .ok "zone1" ∧
    demoSnapshot.totals.requests.all = 1000 ∧
    ∃ st', updateZone demoEnv "24h" "example.com" [] = some st' ∧
      ∃ g, lookupA "cloudflare_requests_rate24h" st' = some g ∧
        g.labelNames = ["zone_id", "zone_name"] ∧
        lookupA (Labels.ofList [("zone_id", "zone1"), ("zone_name", "example.com")]) g.data =
          some 1000 :=
  ⟨rfl, rfl,
   claim_C5 demoEnv "example.com" "zone1" (-86400000000000) demoSnapshot rfl rfl rfl rfl⟩

/-- C6: every per-target failure — zone id resolution error, unparseable
duration, analytics fetch error, or access-token fetch error — abandons only
that target's update, leaving the registry unchanged for it, and the cycle's
emitted gauges are exactly those of the same cycle run without the failing
target: one bad zone or account never affects the others. -/
theorem claim_C6 (env : Env) (since : String) :
    (∀ (z : String) (st : Registry), zoneUpdateFails env since z →
      updateZone env since z st = some st) ∧
    (∀ (a : String) (st : Registry), accountUpdateFails env a →
      updateAccount env a st = some st) ∧
    (∀ (cm : CloudflareMetrics) (zs1 zs2 : List String) (z : String),
      cm.since = since → cm.zones = zs1 ++ z :: zs2 → zoneUpdateFails env since z →
      Option.map CloudflareMetrics.gauges (update env cm) =
        Option.map CloudflareMetrics.gauges (update env { cm with zones := zs1 ++ zs2 })) ∧
    (∀ (cm : CloudflareMetrics) (as1 as2 : List String) (a : String),
      cm.accounts = as1 ++ a :: as2 → accountUpdateFails env a →
      Option.map CloudflareMetrics.gauges (update env cm) =
        Option.map CloudflareMetrics.gauges (update env { cm with accounts := as1 ++ as2 })) := by
  refine ⟨fun z st h => updateZone_of_fails h st,
    fun a st h => updateAccount_of_fails h st, ?_, ?_⟩
  · intro cm zs1 zs2 z hsince hzones hfail
    subst hsince
    rw [update_gauges, update_gauges]
    simp only
    rw [hzones]
    cases hacc :
        (if cm.includeAccess then
          cm.accounts.foldlM (fun s a => updateAccount env a s) cm.gauges
        else some cm.gauges) with
    | none => rfl
    | some st₁ =>
      exact foldlM_skip (fun s => updateZone_of_fails hfail s) zs1 zs2 st₁
  · intro cm as1 as2 a haccts hfail
    rw [update_gauges, update_gauges]
    simp only
    rw [haccts]
    by_cases hia : cm.includeAccess
    · rw [if_pos hia, if_pos hia,
        foldlM_skip (fun s => updateAccount_of_fails hfail s) as1 as2 cm.gauges]
    · rw [if_neg hia, if_neg hia]

/-- Witness for C6: the demo environment fails to resolve `badzone.example`;
its update leaves the registry untouched and the cycle's gauges equal those of
the cycle without it, while `example.com` is still processed. -/
theorem claim_C6_witness :
    updateZone demoEnv "24h" "badzone.example" [] = some [] ∧
    Option.map CloudflareMetrics.gauges (update demoEnv demoCM) =
      Option.map CloudflareMetrics.gauges
        (update demoEnv { demoCM with zones := ["example.com"] }) :=
  ⟨(claim_C6 demoEnv "24h").1 "badzone.example" [] (Or.inl ⟨"zone not found", rfl⟩),
   (claim_C6 demoEnv "24h").2.2.1 demoCM ["example.com"] [] "badzone.example" rfl rfl
     (Or.inl ⟨"zone not found", rfl⟩)⟩

/-- Counterexample to C7 as stated: with the token list
`[(tok, 5), (tok, 9)]` for account `acct1`, `updateAccount` records a single
observation under `{account_id=acct1, token_name=tok}` with value 9 — the
token `(tok, 5)` gets no observation carrying its own expiration 5, because
the intermediate Go map keyed by token name keeps only the last entry. -/
theorem claim_C7_counterexample :
    demoEnv.accessServiceTokens "acct1" = .ok [⟨"tok", 5⟩, ⟨"tok", 9⟩] ∧
    updateAccount demoEnv "acct1" [] = some [("access_service_token_expiration",
      ⟨"The current unix timestamp at which a service token expires",
       ["account_id", "token_name"],
       [([("account_id", "acct1"), ("token_name", "tok")], 9)]⟩)] ∧
    lookupA [("account_id", "acct1"), ("token_name", "tok")]
      [([("account_id", "acct1"), ("token_name", "tok")], (9 : Int))] ≠ some 5 ∧
    [([("account_id", "acct1"), ("token_name", "tok")], (9 : Int))].length ≠
      [(⟨"tok", 5⟩ : AccessServiceToken), ⟨"tok", 9⟩].length :=
  ⟨rfl, by decide, by decide, by decide⟩

/-- C7 amended: for every successfully fetched token list, `updateAccount`
(on a fresh gauge name) records exactly one observation per entry of the
token-name → expiration map built from the list — a later token with the same
name overrides an earlier one — under `{account_id, token_name}` with the
mapped expiration; for duplicate-free lists this is one observation per token
with that token's own expiration (unix seconds). -/
theorem claim_C7_amended (env : Env) (acct : String) (tokens : List AccessServiceToken)
    (st : Registry) (henv : env.accessServiceTokens acct = .ok tokens)
    (hfresh : lookupA "access_service_token_expiration" st = none) :
    ∃ st', updateAccount env acct st = some st' ∧
      lookupA "access_service_token_expiration" st' = some
        ⟨"The current unix timestamp at which a service token expires",
         Labels.keys (Labels.ofList [("account_id", acct), ("token_name", "")]),
         (tokens.foldl (fun m t => setA t.name t.expiresAtUnix m) []).map (fun kv =>
           (setA "token_name" kv.1 (Labels.ofList [("account_id", acct), ("token_name", "")]),
            kv.2))⟩ := by
  simp only [updateAccount, henv]
  rw [updateAccountGaugeByLabel_fresh acct
    "The current unix timestamp at which a service token expires" "token_name"
    (tokens.foldl (fun m t => setA t.name t.expiresAtUnix m) []) hfresh]
  rw [foldl_setA_map (fun k k' he => setA_value_injective _ he) _ []
    (buildTokenMap_nodup tokens) (fun kv _ => rfl)]
  refine ⟨_, rfl, ?_⟩
  simpa using lookupA_append_self
    (v := (⟨"The current unix timestamp at which a service token expires",
      Labels.keys (Labels.ofList [("account_id", acct), ("token_name", "")]),
      (tokens.foldl (fun m t => setA t.name t.expiresAtUnix m) []).map (fun kv =>
        (setA "token_name" kv.1 (Labels.ofList [("account_id", acct), ("token_name", "")]),
         kv.2))⟩ : GaugeVec))
    hfresh

/-- Witness for the amended C7 at the demo account. -/
theorem claim_C7_amended_witness :
    demoEnv.accessServiceTokens "acct1" = .ok [⟨"tok", 5⟩, ⟨"tok", 9⟩] ∧
    ∃ st', updateAccount demoEnv "acct1" [] = some st' ∧
      lookupA "access_service_token_expiration" st' = some
        ⟨"The current unix timestamp at which a service token expires",
         Labels.keys (Labels.ofList [("account_id", "acct1"), ("token_name", "")]),
         (([⟨"tok", 5⟩, ⟨"tok", 9⟩] : List AccessServiceToken).foldl
            (fun m t => setA t.name t.expiresAtUnix m) []).map (fun kv =>
           (setA "token_name" kv.1
             (Labels.ofList [("account_id", "acct1"), ("token_name", "")]), kv.2))⟩ :=
  ⟨rfl, claim_C7_amended demoEnv "acct1" [⟨"tok", 5⟩, ⟨"tok", 9⟩] [] rfl rfl⟩

/-- C8: `New` fails with the dedicated error exactly when the zone list string
is empty; with the dedicated accounts error exactly when access metrics are
enabled and the account list string is empty (and zones are set); with the
no-auth error exactly when, additionally, no authentication method is
available (email+key both set, token set, or user-service-key set); it
succeeds otherwise, choosing the first available method in the order
email+key, token, user-service-key. -/
theorem claim_C8 (c : ExporterConfig) :
    (New c = .error .noZones ↔ c.cloudflareZones = "") ∧
    (New c = .error .noAccounts ↔
      c.cloudflareZones ≠ "" ∧ c.cloudflareIncludeAccess = true ∧ c.cloudflareAccounts = "") ∧
    (New c = .error .noAuth ↔
      c.cloudflareZones ≠ "" ∧
      ¬ (c.cloudflareIncludeAccess = true ∧ c.cloudflareAccounts = "") ∧
      ¬ (c.cloudflareEmail ≠ "" ∧ c.cloudflareKey ≠ "") ∧ c.cloudflareToken = "" ∧
      c.cloudflareUserServiceKey = "") ∧
    ((∃ cm, New c = .ok cm) ↔
      c.cloudflareZones ≠ "" ∧
      ¬ (c.cloudflareIncludeAccess = true ∧ c.cloudflareAccounts = "") ∧
      ((c.cloudflareEmail ≠ "" ∧ c.cloudflareKey ≠ "") ∨ c.cloudflareToken ≠ "" ∨
        c.cloudflareUserServiceKey ≠ "")) ∧
    (∀ cm, New c = .ok cm →
      ((c.cloudflareEmail ≠ "" ∧ c.cloudflareKey ≠ "") ∧
        cm.api = .emailAuth c.cloudflareKey c.cloudflareEmail) ∨
      (¬ (c.cloudflareEmail ≠ "" ∧ c.cloudflareKey ≠ "") ∧ c.cloudflareToken ≠ "" ∧
        cm.api = .tokenAuth c.cloudflareToken) ∨
      (¬ (c.cloudflareEmail ≠ "" ∧ c.cloudflareKey ≠ "") ∧ c.cloudflareToken = "" ∧
        c.cloudflareUserServiceKey ≠ "" ∧
        cm.api = .userServiceKeyAuth c.cloudflareUserServiceKey)) := by
  unfold New newWithEmailAuth newWithTokenAuth newWithUserServiceKeyAuth cloudflareNew
    cloudflareNewWithAPIToken cloudflareNewWithUserServiceKey
  split_ifs with h1 h2 h3 h4 h5 h6 <;> simp_all [newWithAPI, Except.map]

/-- Witness for C8: an empty zone list is rejected with the zones error. -/
theorem claim_C8_witness :
    New ⟨"e", "k", "t", "u", "", "a", "24h", false⟩ = .error .noZones :=
  (claim_C8 ⟨"e", "k", "t", "u", "", "a", "24h", false⟩).1.mpr rfl

/-- C9: over any sequence of update operations, no operation ever removes or
disturbs a previously recorded (label-tuple, value) pair: once a tuple is
present in an instrument it stays present in every later registry state, and
its value is exactly `opsValue` — the original value for as long as no
operation writes that same (instrument, tuple), and from then on the value of
the last such write.  Updates only add or overwrite tuples; they never delete
a tuple and never alter the value of a tuple they do not write. -/
theorem claim_C9 (ops : List MetricOp) :
    ∀ (st st' : Registry), applyOps ops st = some st' →
      ∀ (name : String) (g : GaugeVec) (t : Labels) (w : Int),
        lookupA name st = some g → lookupA t g.data = some w →
        ∃ g', lookupA name st' = some g' ∧
          lookupA t g'.data = some (opsValue name t w ops) := by
  induction ops with
  | nil =>
    intro st st' h name g t w hg hv
    simp only [applyOps, Option.some.injEq] at h
    subst h
    exact ⟨g, hg, by simpa [opsValue] using hv⟩
  | cons op rest ih =>
    intro st st' h name g t w hg hv
    simp only [applyOps] at h
    cases hop : applyOp op st with
    | none => rw [hop] at h; simp at h
    | some st₁ =>
      rw [hop] at h
      obtain ⟨g₁, hg₁, hv₁⟩ := applyOp_value hop hg hv
      simpa [opsValue] using ih st₁ st' h name g₁ t _ hg₁ hv₁

/-- Witness for C9, both directions: an update to another metric leaves the
recorded tuple of `m` with exactly its old value 3, and a same-tuple update to
`m` itself leaves exactly the newly written value 9. -/
theorem claim_C9_witness :
    (∃ g', lookupA "m"
        [("m", (⟨"h", ["a"], [([("a", "x")], 3)]⟩ : GaugeVec)),
         ("m2", ⟨"h2", ["zone_id", "zone_name"],
           [([("zone_id", "z"), ("zone_name", "n")], 7)]⟩)] = some g' ∧
      lookupA [("a", "x")] g'.data = some 3) ∧
    (∃ g', lookupA "m"
        [("m", (⟨"h", ["zone_id", "zone_name"],
          [([("zone_id", "z"), ("zone_name", "n")], 9)]⟩ : GaugeVec))] = some g' ∧
      lookupA [("zone_id", "z"), ("zone_name", "n")] g'.data = some 9) :=
  ⟨claim_C9 [.zoneGauge "z" "n" "m2" "h2" 7]
    [("m", ⟨"h", ["a"], [([("a", "x")], 3)]⟩)]
    [("m", ⟨"h", ["a"], [([("a", "x")], 3)]⟩),
     ("m2", ⟨"h2", ["zone_id", "zone_name"], [([("zone_id", "z"), ("zone_name", "n")], 7)]⟩)]
    (by decide) "m" ⟨"h", ["a"], [([("a", "x")], 3)]⟩ [("a", "x")] 3 (by decide) (by decide),
   claim_C9 [.zoneGauge "z" "n" "m" "h" 9]
    [("m", ⟨"h", ["zone_id", "zone_name"], [([("zone_id", "z"), ("zone_name", "n")], 3)]⟩)]
    [("m", ⟨"h", ["zone_id", "zone_name"], [([("zone_id", "z"), ("zone_name", "n")], 9)]⟩)]
    (by decide) "m" ⟨"h", ["zone_id", "zone_name"], [([("zone_id", "z"), ("zone_name", "n")], 3)]⟩
    [("zone_id", "z"), ("zone_name", "n")] 3 (by decide) (by decide)⟩

/-- C10: email authentication is selected only when both the email and the key
are non-empty; a configuration with only one of them set falls through to
token authentication, then to user-service-key authentication, and yields the
no-authentication error when those are unset too — the lone email (or key)
field is silently ignored. -/
theorem claim_C10 (c : ExporterConfig) (hz : c.cloudflareZones ≠ "")
    (ha : ¬ (c.cloudflareIncludeAccess = true ∧ c.cloudflareAccounts = ""))
    (hek : c.cloudflareEmail = "" ∨ c.cloudflareKey = "") :
    (c.cloudflareToken ≠ "" →
      ∃ cm, New c = .ok cm ∧ cm.api = .tokenAuth c.cloudflareToken) ∧
    (c.cloudflareToken = "" → c.cloudflareUserServiceKey ≠ "" →
      ∃ cm, New c = .ok cm ∧ cm.api = .userServiceKeyAuth c.cloudflareUserServiceKey) ∧
    (c.cloudflareToken = "" → c.cloudflareUserServiceKey = "" →
      New c = .error .noAuth) := by
  unfold New newWithEmailAuth newWithTokenAuth newWithUserServiceKeyAuth cloudflareNew
    cloudflareNewWithAPIToken cloudflareNewWithUserServiceKey
  split_ifs with h1 h2 h3 h4 h5 <;> simp_all [newWithAPI, Except.map]

/-- Witness for C10: an email without a key is ignored and token auth wins. -/
theorem claim_C10_witness :
    ∃ cm, New ⟨"user@example.com", "", "tok", "", "example.com", "", "24h", false⟩ = .ok cm ∧
      cm.api = .tokenAuth "tok" :=
  (claim_C10 ⟨"user@example.com", "", "tok", "", "example.com", "", "24h", false⟩
    (by decide) (by decide) (Or.inr rfl)).1 (by decide)

end CloudflareExporter
